import Mathlib

/-!
Verification of the batch-aggregation-and-delivery engine of
go-session-log-server (webhook-receiver).

The repository contains two variants of the batcher:
* the channel-based `Batcher` in `internal/service/batch.go` (the live code):
  a buffered channel as intake queue, a single `Run` loop selecting over
  payload arrival / ticker / shutdown, and `sendBatch` whose outcome is only
  logged — the loop drops the batch after every hand-off;
* a mutex-guarded variant (`sync.Mutex` over a `payloads` slice) in which
  `sendBatch` clears the slice only after a successful delivery.

Both variants share the same `postWithRetry` delivery client.  The
definitions below are shallow embeddings of these functions: HTTP attempt
outcomes are supplied by an oracle `Nat → AttemptResult`, time and logging
are dropped, and the payload type is an opaque type parameter `α`.
-/

/-- Outcome of one `http.Post` call inside `postWithRetry`: either a
transport error (`err != nil`) or a response carrying a status code. -/
inductive AttemptResult : Type where
  | transportError : AttemptResult
  | response (statusCode : Nat) : AttemptResult
deriving DecidableEq, Repr

/-- The success test of one attempt, from
`if err == nil && resp.StatusCode < 300 { return nil }`. -/
def attemptSucceeds : AttemptResult → Bool
  | .transportError => false
  | .response code => code < 300

/-- The retry loop of `postWithRetry`, started at attempt index `i` with
`fuel` iterations remaining (`for i := 0; i < maxRetries; i++`).  Returns
whether delivery succeeded together with the number of attempts made. -/
def postWithRetryFrom (oracle : Nat → AttemptResult) (i : Nat) : Nat → Bool × Nat
  | 0 => (false, 0)
  | fuel + 1 =>
    if attemptSucceeds (oracle i) then (true, 1)
    else
      let r := postWithRetryFrom oracle (i + 1) fuel
      (r.1, r.2 + 1)

/-- `postWithRetry(data, maxRetries, delay)`: run the attempt loop from the
first attempt.  `true` models a `nil` error, `false` models
`errors.New("max retries exceeded")`. -/
def postWithRetry (oracle : Nat → AttemptResult) (maxRetries : Nat) : Bool × Nat :=
  postWithRetryFrom oracle 0 maxRetries

/-!
The channel-based aggregation loop (`Batcher.Run` in `batch.go`).  The loop
reacts to three event sources of the Go `select`: a payload received from
`payloadCh`, a ticker tick, and the `done` shutdown signal.  We model one
execution of `Run` as the processing of a list of such events.  `sendBatch`
has no return value in Go — its outcome is only logged — so the model
records, for each batch handed to `sendBatch`, the batch together with the
delivery outcome (`Flush.delivered`), computed from per-flush serialization
and attempt oracles.
-/

/-- One event the `select` statement in `Run` can wake up on. -/
inductive Event (α : Type) : Type where
  | unit (p : α) : Event α
  | tick : Event α
  | done : Event α

/-- The record of one `sendBatch` call: the batch handed over and whether
delivery succeeded. -/
structure Flush (α : Type) : Type where
  batch : List α
  delivered : Bool
deriving DecidableEq, Repr

/-- Outcome of `sendBatch(batch)` in `batch.go`: `false` when the batch is
empty (early return), serialization fails, or `postWithRetry` (3 attempts)
fails; the outcome is only logged and never alters the loop state. -/
def sendBatchDelivered (batch : List α) (serOk : Bool) (oracle : Nat → AttemptResult) : Bool :=
  if batch.isEmpty then false
  else if serOk = false then false
  else (postWithRetry oracle 3).1

/-- The body of `Batcher.Run`: fold the event list over the loop state.
`ser k` / `att k` are the serialization and HTTP-attempt oracles of the
`k`-th `sendBatch` call.  Returns the list of `sendBatch` calls made, the
batch still pending when the event list is exhausted, and whether the loop
returned (i.e. `quit` was closed, which is what releases `Stop`).

Mirrors the Go code: a received payload is appended and the batch is
flushed and reset when `len(batch) >= b.size`; a tick flushes a non-empty
batch and ignores an empty one; `done` flushes a non-empty batch, closes
`quit` and returns, ignoring any later events. -/
def Run (size : Nat) (ser : Nat → Bool) (att : Nat → Nat → AttemptResult) :
    List (Event α) → List α → Nat → List (Flush α) × List α × Bool
  | [], batch, _ => ([], batch, false)
  | .unit p :: es, batch, k =>
    let b2 := batch ++ [p]
    if size ≤ b2.length then
      let r := Run size ser att es [] (k + 1)
      (⟨b2, sendBatchDelivered b2 (ser k) (att k)⟩ :: r.1, r.2)
    else
      Run size ser att es b2 k
  | .tick :: es, batch, k =>
    if batch.isEmpty then Run size ser att es batch k
    else
      let r := Run size ser att es [] (k + 1)
      (⟨batch, sendBatchDelivered batch (ser k) (att k)⟩ :: r.1, r.2)
  | .done :: _, batch, k =>
    if batch.isEmpty then ([], [], true)
    else ([⟨batch, sendBatchDelivered batch (ser k) (att k)⟩], [], true)

/-- The units the loop consumes before it sees the shutdown signal. -/
def unitsBeforeDone : List (Event α) → List α
  | [] => []
  | .unit p :: es => p :: unitsBeforeDone es
  | .tick :: es => unitsBeforeDone es
  | .done :: _ => []

/-!
The intake queue (`payloadCh` plus `Batcher.Add` in `batch.go`): submitting
is a non-blocking send into a buffered channel (`select` with a `default`
branch that drops the payload), so a submission is accepted exactly when
the buffer is below its capacity, which `NewBatcher` fixes at `size * 2`.
-/

/-- Non-blocking send into the buffered channel, as performed by
`Batcher.Add`: append when the buffer has room, drop otherwise.  Returns
the new buffer contents and whether the payload was accepted. -/
def chanSend (cap : Nat) (q : List α) (p : α) : List α × Bool :=
  if q.length < cap then (q ++ [p], true) else (q, false)

/-- The channel capacity chosen in `NewBatcher`:
`make(chan model.Payload, size*2)`. -/
def intakeCapacity (size : Nat) : Nat := size * 2

/-- A back-to-back sequence of `Add` calls against the intake channel. -/
def addAll (cap : Nat) : List α → List α → List α
  | q, [] => q
  | q, p :: ps => addAll cap (chanSend cap q p).1 ps

/-- Outcome of `c.ShouldBindJSON(&payload)` in the HTTP handler. -/
inductive BindResult (α : Type) : Type where
  | ok (p : α) : BindResult α
  | failed : BindResult α

/-- The `HandleLog` HTTP handler: a body that fails JSON binding yields
status 400 and touches nothing; a body that binds is passed to
`batcher.Add` (whose accept/drop outcome is not returned to the handler)
and the handler replies 202 Accepted.  Returns the response status code and
the intake buffer after the call. -/
def HandleLog (cap : Nat) (bind : BindResult α) (q : List α) : Nat × List α :=
  match bind with
  | .failed => (400, q)
  | .ok p => (202, (chanSend cap q p).1)

/-!
The mutex-guarded variant (`unnamed/part_001`): `payloads` is a slice under
a mutex, and its `sendBatch` clears the slice and stamps `lastSent` only
after `postWithRetry` succeeds — on serialization or delivery failure it
returns early, leaving the state untouched.
-/

/-- State of the mutex-guarded batcher: the accumulated `payloads` slice
and the `lastSent` timestamp (time is abstracted to `Nat`). -/
structure MBatcher (α : Type) : Type where
  payloads : List α
  lastSent : Nat
deriving DecidableEq, Repr

/-- `sendBatch` of the mutex-guarded variant: skip an empty batch; return
early (state unchanged) when serialization fails or when `postWithRetry`
(3 attempts against the attempt oracle) fails; only on success clear
`payloads`, set `lastSent := now`, and report the delivered batch. -/
def sendBatchM (b : MBatcher α) (serOk : Bool) (oracle : Nat → AttemptResult) (now : Nat) :
    MBatcher α × Option (List α) :=
  if b.payloads.isEmpty then (b, none)
  else if serOk = false then (b, none)
  else if (postWithRetry oracle 3).1 then ({ payloads := [], lastSent := now }, some b.payloads)
  else (b, none)

/-! Helper lemmas. -/

/-- If every attempt in the window fails, the loop runs out of fuel having
made exactly `fuel` attempts. -/
theorem postWithRetryFrom_allFail (oracle : Nat → AttemptResult) :
    ∀ fuel i, (∀ j, j < fuel → attemptSucceeds (oracle (i + j)) = false) →
      postWithRetryFrom oracle i fuel = (false, fuel) := by
  intro fuel
  induction fuel with
  | zero => intro i _; rfl
  | succ m ih =>
    intro i h
    have h0 : attemptSucceeds (oracle i) = false := by
      have := h 0 (Nat.succ_pos m)
      simpa using this
    have hrest : postWithRetryFrom oracle (i + 1) m = (false, m) := by
      apply ih
      intro j hj
      have := h (j + 1) (Nat.succ_lt_succ hj)
      simpa [Nat.add_assoc, Nat.add_comm 1 j] using this
    simp [postWithRetryFrom, h0, hrest]

/-- If the first `k` attempts (counted from index `i`) fail and attempt
`i + k` succeeds, with `k` strictly below the fuel, the loop stops right
after the successful attempt, having made `k + 1` attempts. -/
theorem postWithRetryFrom_firstSuccess (oracle : Nat → AttemptResult) :
    ∀ k fuel i, k < fuel →
      (∀ j, j < k → attemptSucceeds (oracle (i + j)) = false) →
      attemptSucceeds (oracle (i + k)) = true →
      postWithRetryFrom oracle i fuel = (true, k + 1) := by
  intro k
  induction k with
  | zero =>
    intro fuel i hk _ hsucc
    obtain ⟨m, rfl⟩ := Nat.exists_eq_add_of_lt hk
    have h0 : attemptSucceeds (oracle i) = true := by simpa using hsucc
    simp [postWithRetryFrom, Nat.add_comm, h0]
  | succ k ih =>
    intro fuel i hk hfail hsucc
    obtain ⟨m, rfl⟩ := Nat.exists_eq_add_of_lt hk
    have h0 : attemptSucceeds (oracle i) = false := by
      have := hfail 0 (Nat.succ_pos k)
      simpa using this
    have hrec : postWithRetryFrom oracle (i + 1) (k + 1 + m) = (true, k + 1) := by
      apply ih
      · omega
      · intro j hj
        have := hfail (j + 1) (Nat.succ_lt_succ hj)
        simpa [Nat.add_assoc, Nat.add_comm 1 j] using this
      · have : i + 1 + k = i + (k + 1) := by omega
        rw [this]
        exact hsucc
    have hfuel : k + 1 + m + 1 = (k + 1 + m) + 1 := rfl
    simp [Nat.add_comm (k + 1 + m) 1, postWithRetryFrom, h0, hrec]

/-- Conservation: every unit the loop consumes ends up in exactly one
flushed batch or in the final pending batch — flushed batches are dropped
from the state and never re-enter a later flush. -/
theorem Run_conservation (size : Nat) (ser : Nat → Bool) (att : Nat → Nat → AttemptResult) :
    ∀ (es : List (Event α)) (batch : List α) (k : Nat),
      (((Run size ser att es batch k).1.map Flush.batch).flatten)
          ++ (Run size ser att es batch k).2.1
        = batch ++ unitsBeforeDone es := by
  intro es
  induction es with
  | nil => intro batch k; simp [Run, unitsBeforeDone]
  | cons e es ih =>
    intro batch k
    cases e with
    | unit p =>
      by_cases h : size ≤ batch.length + 1
      · simp [Run, unitsBeforeDone, h, ih]
      · simp [Run, unitsBeforeDone, h, ih]
    | tick =>
      by_cases h : batch.isEmpty
      · have hb : batch = [] := by simpa [List.isEmpty_iff] using h
        subst hb
        simp [Run, unitsBeforeDone, ih]
      · simp [Run, unitsBeforeDone, h, ih]
    | done =>
      by_cases h : batch.isEmpty
      · have hb : batch = [] := by simpa [List.isEmpty_iff] using h
        subst hb
        simp [Run, unitsBeforeDone]
      · simp [Run, unitsBeforeDone, h]

/-- The loop state and the sequence of flushed batches do not depend on the
delivery outcomes: serialization or delivery failure neither rolls the
batch back nor changes anything the loop does next. -/
theorem Run_outcome_independent (size : Nat)
    (ser ser' : Nat → Bool) (att att' : Nat → Nat → AttemptResult) :
    ∀ (es : List (Event α)) (batch : List α) (k k' : Nat),
      (Run size ser att es batch k).1.map Flush.batch
          = (Run size ser' att' es batch k').1.map Flush.batch
        ∧ (Run size ser att es batch k).2 = (Run size ser' att' es batch k').2 := by
  intro es
  induction es with
  | nil => intro batch k k'; exact ⟨rfl, rfl⟩
  | cons e es ih =>
    intro batch k k'
    cases e with
    | unit p =>
      obtain ⟨h1, h2⟩ := ih ([] : List α) (k + 1) (k' + 1)
      obtain ⟨h3, h4⟩ := ih (batch ++ [p]) k k'
      by_cases h : size ≤ batch.length + 1
      · exact ⟨by simp [Run, h, h1], by simp [Run, h, h2]⟩
      · exact ⟨by simp [Run, h, h3], by simp [Run, h, h4]⟩
    | tick =>
      obtain ⟨h1, h2⟩ := ih ([] : List α) (k + 1) (k' + 1)
      obtain ⟨h3, h4⟩ := ih batch k k'
      by_cases h : batch.isEmpty
      · exact ⟨by simp [Run, h, h3], by simp [Run, h, h4]⟩
      · exact ⟨by simp [Run, h, h1], by simp [Run, h, h2]⟩
    | done =>
      by_cases h : batch.isEmpty
      · exact ⟨by simp [Run, h], by simp [Run, h]⟩
      · exact ⟨by simp [Run, h], by simp [Run, h]⟩

/-- Processing a run of payload arrivals that never reaches the size bound:
all of them accumulate in the pending batch, in arrival order, with no
flush. -/
theorem Run_units_under_size (size : Nat) (ser : Nat → Bool) (att : Nat → Nat → AttemptResult) :
    ∀ (l batch : List α) (k : Nat), batch.length + l.length < size →
      Run size ser att (l.map .unit) batch k = ([], batch ++ l, false) := by
  intro l
  induction l with
  | nil => intro batch k _; simp [Run]
  | cons p ps ih =>
    intro batch k h
    have hno : ¬ size ≤ batch.length + 1 := by
      simp only [List.length_cons] at h; omega
    have hrec := ih (batch ++ [p]) k (by simp at h ⊢; omega)
    simp [Run, hno, hrec]

/-- Processing a run of payload arrivals whose last one brings the batch to
exactly the size bound: the size comparison fires on that append, the full
batch is handed to `sendBatch`, and the loop continues on the remaining
events with a fresh empty batch. -/
theorem Run_units_exact_size (size : Nat) (ser : Nat → Bool) (att : Nat → Nat → AttemptResult) :
    ∀ (l batch : List α) (k : Nat) (es : List (Event α)), l ≠ [] →
      batch.length + l.length = size →
      Run size ser att (l.map .unit ++ es) batch k
        = (⟨batch ++ l, sendBatchDelivered (batch ++ l) (ser k) (att k)⟩
             :: (Run size ser att es [] (k + 1)).1,
           (Run size ser att es [] (k + 1)).2) := by
  intro l
  induction l with
  | nil => intro batch k es hne _; exact absurd rfl hne
  | cons p ps ih =>
    intro batch k es _ h
    cases ps with
    | nil =>
      have hyes : size ≤ batch.length + 1 := by
        simp only [List.length_cons, List.length_nil] at h; omega
      simp [Run, hyes]
    | cons q qs =>
      have hno : ¬ size ≤ batch.length + 1 := by
        simp only [List.length_cons] at h; omega
      have hrec := ih (batch ++ [p]) k es (by simp)
        (by simp at h ⊢; omega)
      simp [Run] at hrec
      simp [Run, hno]
      exact hrec

/-- `Add` never grows the channel beyond its capacity. -/
theorem chanSend_length_le (cap : Nat) (q : List α) (p : α) (h : q.length ≤ cap) :
    ((chanSend cap q p).1).length ≤ cap := by
  unfold chanSend
  by_cases hlt : q.length < cap
  · simp [hlt]; omega
  · simp [hlt, h]

/-- A sequence of `Add` calls never grows the channel beyond capacity. -/
theorem addAll_length_le (cap : Nat) :
    ∀ (ps q : List α), q.length ≤ cap → (addAll cap q ps).length ≤ cap := by
  intro ps
  induction ps with
  | nil => intro q h; simpa [addAll] using h
  | cons p ps ih =>
    intro q h
    simpa [addAll] using ih _ (chanSend_length_le cap q p h)

/-- When the whole sequence fits below capacity, every `Add` is accepted
and the channel holds the submissions in order. -/
theorem addAll_all_accepted (cap : Nat) :
    ∀ (ps q : List α), q.length + ps.length ≤ cap → addAll cap q ps = q ++ ps := by
  intro ps
  induction ps with
  | nil => intro q _; simp [addAll]
  | cons p ps ih =>
    intro q h
    have hlt : q.length < cap := by simp at h; omega
    have hrec := ih (q ++ [p]) (by simp at h ⊢; omega)
    simp [addAll, chanSend, hlt, hrec]

/-! Claim theorems. -/

/-- C1: every batch handed to `sendBatch` is discarded afterwards no matter
how delivery went.  First conjunct (conservation): the concatenation of all
flushed batches followed by the still-pending batch is exactly the initial
batch followed by the consumed units, so each unit lies in exactly one
flushed batch or in the single pending batch — a flushed batch never
re-enters a later flush, and the loop holds one live batch at a time.
Second and third conjuncts: the flushed batches, the pending batch and the
loop exit flag are identical under any serialization/delivery oracles —
success, serialization failure and delivery failure all leave the loop
state the same. -/
theorem C1_batch_discarded_regardless_of_outcome
    (size : Nat) (ser ser' : Nat → Bool) (att att' : Nat → Nat → AttemptResult)
    (es : List (Event α)) (batch : List α) (k k' : Nat) :
    ((Run size ser att es batch k).1.map Flush.batch).flatten
        ++ (Run size ser att es batch k).2.1 = batch ++ unitsBeforeDone es
      ∧ (Run size ser att es batch k).1.map Flush.batch
          = (Run size ser' att' es batch k').1.map Flush.batch
      ∧ (Run size ser att es batch k).2 = (Run size ser' att' es batch k').2 :=
  ⟨Run_conservation size ser att es batch k,
   (Run_outcome_independent size ser ser' att att' es batch k k').1,
   (Run_outcome_independent size ser ser' att att' es batch k k').2⟩

/-- C2: on the shutdown signal with a non-empty pending batch, the loop
performs exactly one final flush containing that whole batch and only then
returns (closing `quit`, which is what releases the blocked `Stop` call);
with an empty pending batch the final flush is skipped and no `sendBatch`
call happens.  Later events are ignored: `Run` has returned. -/
theorem C2_stop_final_flush
    (size : Nat) (ser : Nat → Bool) (att : Nat → Nat → AttemptResult)
    (es : List (Event α)) (batch : List α) (k : Nat) (h : batch ≠ []) :
    Run size ser att (.done :: es) batch k
        = ([⟨batch, sendBatchDelivered batch (ser k) (att k)⟩], [], true)
      ∧ Run size ser att (.done :: es) ([] : List α) k = ([], [], true) := by
  constructor
  · have hb : batch.isEmpty = false := by simp [List.isEmpty_iff, h]
    simp [Run, hb]
  · simp [Run]

theorem C2_stop_final_flush_witness :
    ([0] : List Nat) ≠ [] ∧
      Run 5 (fun _ => true) (fun _ _ => .response 200) [Event.done] [0] 0
        = ([⟨[0], true⟩], [], true) := by
  refine ⟨by decide, ?_⟩
  have h := C2_stop_final_flush 5 (fun _ => true) (fun _ _ => .response 200)
    ([] : List (Event Nat)) [0] 0 (by decide)
  have hd : sendBatchDelivered [0] true (fun _ => AttemptResult.response 200) = true := by decide
  simpa [hd] using h.1

/-- C3: submitting exactly `maxBatchSize` units back-to-back with no timer
tick in between produces exactly one flush containing all of them in
submission order, triggered by the `len(batch) >= b.size` comparison as the
last unit is appended (the event list contains no tick); moreover the
intake channel, whose capacity is `size * 2`, admits every one of those
submissions. -/
theorem C3_exact_size_single_flush
    (size : Nat) (ser : Nat → Bool) (att : Nat → Nat → AttemptResult)
    (l : List α) (k : Nat) (hl : l.length = size) (hpos : 0 < size) :
    Run size ser att (l.map .unit) ([] : List α) k
        = ([⟨l, sendBatchDelivered l (ser k) (att k)⟩], [], false)
      ∧ addAll (intakeCapacity size) ([] : List α) l = l := by
  have hne : l ≠ [] := by
    intro hnil; subst hnil; simp at hl; omega
  constructor
  · have h := Run_units_exact_size size ser att l ([] : List α) k [] hne (by simpa using hl)
    simpa [Run] using h
  · have h := addAll_all_accepted (intakeCapacity size) l ([] : List α)
      (by simp [intakeCapacity, hl]; omega)
    simpa using h

theorem C3_exact_size_single_flush_witness :
    ([7, 8, 9] : List Nat).length = 3 ∧ 0 < 3 ∧
      Run 3 (fun _ => true) (fun _ _ => .response 200)
          ([7, 8, 9].map Event.unit) ([] : List Nat) 0
        = ([⟨[7, 8, 9], true⟩], [], false) ∧
      addAll (intakeCapacity 3) ([] : List Nat) [7, 8, 9] = [7, 8, 9] := by
  refine ⟨by decide, by decide, ?_⟩
  have h := C3_exact_size_single_flush 3 (fun _ => true) (fun _ _ => .response 200)
    [7, 8, 9] 0 (by decide) (by decide)
  have hd : sendBatchDelivered [7, 8, 9] true (fun _ => AttemptResult.response 200) = true := by
    decide
  exact ⟨by simpa [hd] using h.1, h.2⟩

/-- C4: when every one of the `n` configured attempts fails (transport
error or non-success status), `postWithRetry` makes exactly `n` attempts
and reports failure; and the aggregation loop stays alive afterwards: with
every delivery attempt failing (and serialization fine), a full batch is
flushed exactly once with a failed outcome and units submitted after it are
still accepted and accumulate in the next pending batch. -/
theorem C4_delivery_exhausted_loop_alive
    (size n : Nat) (hpos : 0 < size)
    (oracle : Nat → AttemptResult)
    (hfail : ∀ j, j < n → attemptSucceeds (oracle j) = false)
    (ser : Nat → Bool) (att : Nat → Nat → AttemptResult)
    (hser : ser 0 = true) (hatt : ∀ j, attemptSucceeds (att 0 j) = false)
    (l l2 : List α) (hl : l.length = size) (hl2 : l2.length < size) :
    postWithRetry oracle n = (false, n)
      ∧ Run size ser att (l.map .unit ++ l2.map .unit) ([] : List α) 0
          = ([⟨l, false⟩], l2, false) := by
  have hne : l ≠ [] := by
    intro hnil; subst hnil; simp at hl; omega
  constructor
  · unfold postWithRetry
    exact postWithRetryFrom_allFail oracle n 0 (by intro j hj; simpa using hfail j hj)
  · have hx := Run_units_exact_size size ser att l ([] : List α) 0 (l2.map .unit) hne
      (by simpa using hl)
    have hu := Run_units_under_size size ser att l2 ([] : List α) 1 (by simpa using hl2)
    have hpost : (postWithRetry (att 0) 3).1 = false := by
      have := postWithRetryFrom_allFail (att 0) 3 0 (by intro j _; simpa using hatt j)
      simp [postWithRetry, this]
    have hdel : sendBatchDelivered l (ser 0) (att 0) = false := by
      simp [sendBatchDelivered, List.isEmpty_iff, hne, hser, hpost]
    rw [hx, hu]
    simp [hdel]

theorem C4_delivery_exhausted_loop_alive_witness :
    postWithRetry (fun _ => .transportError) 3 = (false, 3) ∧
      Run 1 (fun _ => true) (fun _ _ => .transportError)
          (([0] : List Nat).map Event.unit ++ ([] : List Nat).map Event.unit)
          ([] : List Nat) 0
        = ([⟨[0], false⟩], [], false) :=
  C4_delivery_exhausted_loop_alive 1 3 (by decide)
    (fun _ => .transportError) (by intro j _; rfl)
    (fun _ => true) (fun _ _ => .transportError) (by decide) (by intro j; rfl)
    [0] [] (by decide) (by decide)

/-- C5: if the sink fails the first `k` attempts and succeeds on attempt
`k+1` (`k < n`, `n` the configured maximum), `postWithRetry` reports
success and makes exactly `k + 1` attempts: a successful response ends the
retry loop immediately. -/
theorem C5_retry_stops_on_first_success
    (oracle : Nat → AttemptResult) (k n : Nat) (hk : k < n)
    (hfail : ∀ j, j < k → attemptSucceeds (oracle j) = false)
    (hsucc : attemptSucceeds (oracle k) = true) :
    postWithRetry oracle n = (true, k + 1) := by
  unfold postWithRetry
  apply postWithRetryFrom_firstSuccess oracle k n 0 hk
  · intro j hj; simpa using hfail j hj
  · simpa using hsucc

theorem C5_retry_stops_on_first_success_witness :
    (1 : Nat) < 3 ∧
      postWithRetry (fun j => if j < 1 then .transportError else .response 200) 3 = (true, 2) := by
  refine ⟨by decide, ?_⟩
  exact C5_retry_stops_on_first_success _ 1 3 (by decide)
    (by intro j hj; interval_cases j; decide) (by decide)

/-- C6: a ticker tick with an empty pending batch performs no `sendBatch`
call at all — the loop state after the tick equals the state without the
tick (zero deliveries); a tick with a non-empty pending batch hands exactly
that batch to `sendBatch` once and resets the pending batch to empty. -/
theorem C6_tick_empty_no_delivery
    (size : Nat) (ser : Nat → Bool) (att : Nat → Nat → AttemptResult)
    (es : List (Event α)) (batch : List α) (k : Nat) (h : batch ≠ []) :
    Run size ser att (.tick :: es) ([] : List α) k = Run size ser att es ([] : List α) k
      ∧ Run size ser att (.tick :: es) batch k
          = (⟨batch, sendBatchDelivered batch (ser k) (att k)⟩
               :: (Run size ser att es [] (k + 1)).1,
             (Run size ser att es [] (k + 1)).2) := by
  constructor
  · simp [Run]
  · have hb : batch.isEmpty = false := by simp [List.isEmpty_iff, h]
    simp [Run, hb]

theorem C6_tick_empty_no_delivery_witness :
    ([4] : List Nat) ≠ [] ∧
      Run 5 (fun _ => true) (fun _ _ => .response 200) [Event.tick] ([4] : List Nat) 0
        = ([⟨[4], true⟩], [], false) := by
  refine ⟨by decide, ?_⟩
  have h := C6_tick_empty_no_delivery 5 (fun _ => true) (fun _ _ => .response 200)
    ([] : List (Event Nat)) [4] 0 (by decide)
  have hd : sendBatchDelivered [4] true (fun _ => AttemptResult.response 200) = true := by decide
  have h2 := h.2
  rw [hd] at h2
  simpa [Run] using h2

/-- C7: `Add` is a non-blocking immediate accept/drop.  A submission into a
channel below its capacity (`size * 2` from `NewBatcher`) is accepted and
appended; a submission into a channel at (or beyond) capacity leaves the
channel unchanged and reports the drop; and no sequence of submissions ever
grows the channel beyond its capacity. -/
theorem C7_intake_bounded_nonblocking
    (size : Nat) (q r : List α) (p : α) (ps : List α)
    (hq : q.length < intakeCapacity size) (hr : intakeCapacity size ≤ r.length) :
    chanSend (intakeCapacity size) q p = (q ++ [p], true)
      ∧ chanSend (intakeCapacity size) r p = (r, false)
      ∧ (addAll (intakeCapacity size) q ps).length ≤ intakeCapacity size := by
  refine ⟨by simp [chanSend, hq], ?_, ?_⟩
  · have : ¬ r.length < intakeCapacity size := by omega
    simp [chanSend, this]
  · exact addAll_length_le (intakeCapacity size) ps q (Nat.le_of_lt hq)

theorem C7_intake_bounded_nonblocking_witness :
    ([5] : List Nat).length < intakeCapacity 1 ∧ intakeCapacity 1 ≤ ([5, 6] : List Nat).length ∧
      chanSend (intakeCapacity 1) [5] 7 = ([5, 7], true) ∧
      chanSend (intakeCapacity 1) [5, 6] 7 = ([5, 6], false) ∧
      (addAll (intakeCapacity 1) ([5] : List Nat) [8, 9, 10]).length ≤ intakeCapacity 1 := by
  refine ⟨by decide, by decide, ?_⟩
  have h := C7_intake_bounded_nonblocking 1 [5] [5, 6] 7 [8, 9, 10] (by decide) (by decide)
  exact ⟨h.1, h.2.1, h.2.2⟩

/-- C9: in the mutex-guarded variant, a `sendBatch` call in which
serialization fails or `postWithRetry` exhausts its attempts leaves both
`payloads` and `lastSent` exactly as they were and delivers nothing; those
same retained units (together with anything appended since) are the batch
delivered by the next flush that does succeed. -/
theorem C9_mutex_failure_retains_payloads
    (b : MBatcher α) (serOk : Bool) (oracle : Nat → AttemptResult) (now : Nat)
    (h : serOk = false ∨ (postWithRetry oracle 3).1 = false) :
    sendBatchM b serOk oracle now = (b, none)
      ∧ (∀ (extra : List α) (oracle' : Nat → AttemptResult) (now' : Nat),
          b.payloads ≠ [] → (postWithRetry oracle' 3).1 = true →
          sendBatchM ⟨b.payloads ++ extra, b.lastSent⟩ true oracle' now'
            = (⟨[], now'⟩, some (b.payloads ++ extra))) := by
  constructor
  · by_cases hemp : b.payloads.isEmpty
    · simp [sendBatchM, hemp]
    · rcases h with h | h
      · simp [sendBatchM, hemp, h]
      · cases serOk with
        | false => simp [sendBatchM, hemp]
        | true => simp [sendBatchM, hemp, h]
  · intro extra oracle' now' hne hok
    have hemp : (b.payloads ++ extra).isEmpty = false := by
      simp [List.isEmpty_iff, hne]
    simp [sendBatchM, hemp, hok]

theorem C9_mutex_failure_retains_payloads_witness :
    sendBatchM (⟨[3], 5⟩ : MBatcher Nat) true (fun _ => .transportError) 9
        = (⟨[3], 5⟩, none)
      ∧ sendBatchM (⟨[3, 4], 5⟩ : MBatcher Nat) true (fun _ => .response 200) 7
        = (⟨[], 7⟩, some [3, 4]) := by
  have h := C9_mutex_failure_retains_payloads (⟨[3], 5⟩ : MBatcher Nat) true
    (fun _ => .transportError) 9 (Or.inr (by decide))
  refine ⟨h.1, ?_⟩
  have h2 := h.2 [4] (fun _ => .response 200) 7 (by decide) (by decide)
  simpa using h2

/-- C10: the HTTP handler replies 202 Accepted whenever the body binds as a
`Payload`, whether or not the intake channel had room — a queue-full drop
is invisible to the producer (the unit is silently discarded while the
handler still replies 202); only a body that fails binding yields 400. -/
theorem C10_handler_hides_queue_full
    (cap : Nat) (p : α) (q q2 : List α) (hfull : cap ≤ q.length) :
    (HandleLog cap (BindResult.ok p) q2).1 = 202
      ∧ HandleLog cap (BindResult.ok p) q = (202, q)
      ∧ HandleLog cap (BindResult.failed : BindResult α) q2 = (400, q2) := by
  refine ⟨rfl, ?_, rfl⟩
  have : ¬ q.length < cap := by omega
  simp [HandleLog, chanSend, this]

theorem C10_handler_hides_queue_full_witness :
    (2 : Nat) ≤ ([1, 2] : List Nat).length ∧
      (HandleLog 2 (BindResult.ok 9) ([3] : List Nat)).1 = 202 ∧
      HandleLog 2 (BindResult.ok 9) ([1, 2] : List Nat) = (202, [1, 2]) ∧
      HandleLog 2 (BindResult.failed : BindResult Nat) [3] = (400, [3]) := by
  refine ⟨by decide, ?_⟩
  have h := C10_handler_hides_queue_full 2 (9 : Nat) [1, 2] [3] (by decide)
  exact ⟨h.1, h.2.1, h.2.2⟩

/-- C8: per-attempt classification and its effect on the loop.  A response
with status strictly below 300 counts as success; a transport error or a
response with status `≥ 300` counts as a failed attempt.  One step of the
retry loop returns immediately on a successful attempt and otherwise
recurses into the remaining attempts, adding one to the attempt count. -/
theorem C8_attempt_classification (oracle : Nat → AttemptResult) (i fuel c : Nat) :
    attemptSucceeds (.response c) = decide (c < 300) ∧
    attemptSucceeds .transportError = false ∧
    postWithRetryFrom oracle i (fuel + 1) =
      (if attemptSucceeds (oracle i) then (true, 1)
       else ((postWithRetryFrom oracle (i + 1) fuel).1,
             (postWithRetryFrom oracle (i + 1) fuel).2 + 1)) := by
  refine ⟨rfl, rfl, ?_⟩
  by_cases h : attemptSucceeds (oracle i) = true
  · simp [postWithRetryFrom, h]
  · simp only [Bool.not_eq_true] at h
    simp [postWithRetryFrom, h]
